import Mathlib

/-!
Verification of the animation-frame pacing pipeline of the 3D avatar chat
web client.

The pipeline is implemented in `src/lib/hooks/useAnimationData.ts`
(classifier, downsampler, ordered buffer, interrupt channel) and in
`src/pages/AvatarView.tsx` (emitter effects forwarding to the Unity
rendering module).  An older variant of the avatar view with module-scoped
diagnostic counters appears as `src/unnamed/part_001`.

Payloads are byte sequences, modelled as `List Nat` with each element a
byte value `< 256` where it matters (the code only inspects lengths and
byte values, never overflows).  `TextDecoder.decode` (non-fatal mode, the
default used by the source) is modelled by a total lossy UTF-8 decoder
that emits U+FFFD on malformed input, exactly as the WHATWG decoder does;
a parallel validity predicate captures the notion of a payload whose
strict decode fails.
-/

namespace FramePipeline

/-- Replacement character U+FFFD produced by lossy UTF-8 decoding. -/
def replacementChar : Char := Char.ofNat 0xFFFD

/-- Whether a byte is a UTF-8 continuation byte (0x80 to 0xBF). -/
def isCont (b : Nat) : Bool := 0x80 ≤ b && b ≤ 0xBF

/-- Allowed range of the second byte of a three-byte sequence, which
depends on the lead byte (excludes overlong encodings and surrogates). -/
def second3Ok (b b2 : Nat) : Bool :=
  if b = 0xE0 then 0xA0 ≤ b2 && b2 ≤ 0xBF
  else if b = 0xED then 0x80 ≤ b2 && b2 ≤ 0x9F
  else isCont b2

/-- Allowed range of the second byte of a four-byte sequence, which
depends on the lead byte (excludes overlong encodings and values above
U+10FFFF). -/
def second4Ok (b b2 : Nat) : Bool :=
  if b = 0xF0 then 0x90 ≤ b2 && b2 ≤ 0xBF
  else if b = 0xF4 then 0x80 ≤ b2 && b2 ≤ 0x8F
  else isCont b2

/-- Decode one scalar value from lead byte `b` and remaining bytes `l`.
Returns the decoded character, the bytes not consumed, and whether the
sequence was well-formed.  On a malformed sequence it returns U+FFFD and
resumes at the offending byte, as the WHATWG UTF-8 decoder does. -/
def utf8DecodeAux (b : Nat) (l : List Nat) : Char × List Nat × Bool :=
  if b ≤ 0x7F then (Char.ofNat b, l, true)
  else if 0xC2 ≤ b && b ≤ 0xDF then
    match l with
    | b2 :: l2 =>
      if isCont b2 then (Char.ofNat ((b - 0xC0) * 64 + (b2 - 0x80)), l2, true)
      else (replacementChar, l, false)
    | [] => (replacementChar, [], false)
  else if 0xE0 ≤ b && b ≤ 0xEF then
    match l with
    | b2 :: l2 =>
      if second3Ok b b2 then
        match l2 with
        | b3 :: l3 =>
          if isCont b3 then
            (Char.ofNat ((b - 0xE0) * 4096 + (b2 - 0x80) * 64 + (b3 - 0x80)), l3, true)
          else (replacementChar, l2, false)
        | [] => (replacementChar, [], false)
      else (replacementChar, l, false)
    | [] => (replacementChar, [], false)
  else if 0xF0 ≤ b && b ≤ 0xF4 then
    match l with
    | b2 :: l2 =>
      if second4Ok b b2 then
        match l2 with
        | b3 :: l3 =>
          if isCont b3 then
            match l3 with
            | b4 :: l4 =>
              if isCont b4 then
                (Char.ofNat
                  ((b - 0xF0) * 262144 + (b2 - 0x80) * 4096 + (b3 - 0x80) * 64 + (b4 - 0x80)),
                  l4, true)
              else (replacementChar, l3, false)
            | [] => (replacementChar, [], false)
          else (replacementChar, l2, false)
        | [] => (replacementChar, [], false)
      else (replacementChar, l, false)
    | [] => (replacementChar, [], false)
  else (replacementChar, l, false)

/-- Fuel-driven helper for the lossy decoder: structural recursion on the
fuel so the kernel can evaluate it.  With fuel at least the length of the
byte list the fuel never runs out. -/
def utf8DecodeFuel : Nat → List Nat → List Char
  | 0, _ => []
  | _ + 1, [] => []
  | fuel + 1, b :: rest =>
      (utf8DecodeAux b rest).1 :: utf8DecodeFuel fuel (utf8DecodeAux b rest).2.1

/-- Fuel-driven helper for UTF-8 validity, mirroring `utf8DecodeFuel`. -/
def utf8ValidFuel : Nat → List Nat → Bool
  | 0, _ => true
  | _ + 1, [] => true
  | fuel + 1, b :: rest =>
      (utf8DecodeAux b rest).2.2 && utf8ValidFuel fuel (utf8DecodeAux b rest).2.1

/-- Lossy UTF-8 decoding of a byte sequence, the model of
`new TextDecoder().decode(payload)` in its default non-fatal mode: total,
never raises, malformed sequences become U+FFFD. -/
def utf8Decode (l : List Nat) : List Char := utf8DecodeFuel l.length l

/-- Whether a byte sequence is well-formed UTF-8, i.e. whether a strict
(fatal-mode) decode of it would succeed. -/
def utf8Valid (l : List Nat) : Bool := utf8ValidFuel l.length l

/-- Text decoding as the source uses it: bytes to a string. -/
def textDecode (l : List Nat) : String := String.mk (utf8Decode l)

/-- Character-list version of `String.startsWith`: does the first list
start with the second one. -/
def listStartsWith : List Char → List Char → Bool
  | _, [] => true
  | [], _ :: _ => false
  | a :: as, b :: bs => a == b && listStartsWith as bs

/-- Embed of `identity.startsWith(pre)` on strings. -/
def strStartsWith (s pre : String) : Bool := listStartsWith s.data pre.data

/-- Embed of the guard `participant?.identity?.startsWith('agent')` in
`useAnimationData.ts` line 30: an absent participant or absent identity
fails the check. -/
def agentIdentity : Option String → Bool
  | none => false
  | some id => strStartsWith id "agent"

/-- State held by one mounted instance of the `useAnimationData` hook
(`useAnimationData.ts` lines 12-22).  `latestFrame` carries, besides the
payload, the value of `framesDequeued` at the moment of the pop: it
stands for the identity of the freshly shifted `Uint8Array` object, since
React compares effect dependencies with `Object.is`, which distinguishes
two array objects even when their contents coincide, while numbers are
compared by value. -/
structure HookState where
  latestFrame : Option (Nat × List Nat)
  frameCount : Nat
  interruptSignal : Nat
  frameQueue : List (List Nat)
  firstFrameTime : Option Nat
  totalFramesReceived : Nat
  framesDequeued : Nat
deriving DecidableEq, Repr

/-- Initial hook state: the values the `useState` and `useRef` calls are
initialised with on every mount of the hook. -/
def initHookState : HookState :=
  { latestFrame := none
    frameCount := 0
    interruptSignal := 0
    frameQueue := []
    firstFrameTime := none
    totalFramesReceived := 0
    framesDequeued := 0 }

/-- Embed of `frameQueue.current = []` (`useAnimationData.ts` line 77). -/
def clearQueue (s : HookState) : HookState := { s with frameQueue := [] }

/-- Embed of `setInterruptSignal(Date.now())` (`useAnimationData.ts` line
78); the wall-clock value is passed in as `t`. -/
def setInterruptSignal (t : Nat) (s : HookState) : HookState :=
  { s with interruptSignal := t }

/-- Embed of `handleDataReceived` (`useAnimationData.ts` lines 28-84).
The parameters `now` and `dateNow` stand for the values of
`performance.now()` and `Date.now()` during this invocation.  The
`console.log` calls of the source do not change state and are omitted.
The `try/catch` around the text decode is represented by `textDecode`
being total: the default-mode `TextDecoder` never throws, and a payload
that is not valid UTF-8 decodes to text containing U+FFFD, which matches
neither control token, so it falls through to the ignore branch exactly
as a caught exception would. -/
def handleDataReceived (s : HookState) (payload : List Nat)
    (identity : Option String) (now dateNow : Nat) : HookState :=
  if !agentIdentity identity then s
  else if payload.length = 208 then
    let s1 := if s.firstFrameTime = none then { s with firstFrameTime := some now } else s
    let s2 := { s1 with totalFramesReceived := s1.totalFramesReceived + 1 }
    if s2.totalFramesReceived % 3 = 0 then
      { s2 with frameQueue := s2.frameQueue ++ [payload] }
    else s2
  else
    let message := textDecode payload
    if message = "final" then
      { s with frameQueue := s.frameQueue ++ [payload] }
    else if message = "interrupted" then
      setInterruptSignal dateNow (clearQueue s)
    else s

/-- Embed of one firing of the 16.67 ms `setInterval` callback
(`useAnimationData.ts` lines 95-107): if the queue is non-empty, shift
the front entry, publish it as `latestFrame` and bump the dequeue
counters; otherwise do nothing. -/
def tickHook (s : HookState) : HookState :=
  match s.frameQueue with
  | [] => s
  | frame :: rest =>
      { s with
        frameQueue := rest
        latestFrame := some (s.framesDequeued + 1, frame)
        frameCount := s.frameCount + 1
        framesDequeued := s.framesDequeued + 1 }

/-- Result of classifying one inbound packet, following the branch
structure of `handleDataReceived`. -/
inductive Classification where
  | frame
  | finalSignal
  | interruptedSignal
  | ignored
deriving DecidableEq, Repr

/-- Classification of one inbound packet, read off the branch structure
of `handleDataReceived` (`useAnimationData.ts` lines 28-84). -/
def classify (payload : List Nat) (identity : Option String) : Classification :=
  if !agentIdentity identity then .ignored
  else if payload.length = 208 then .frame
  else if textDecode payload = "final" then .finalSignal
  else if textDecode payload = "interrupted" then .interruptedSignal
  else .ignored

/-- UTF-8 bytes of the control token "final". -/
def finalPayload : List Nat := [102, 105, 110, 97, 108]

/-- UTF-8 bytes of the control token "interrupted". -/
def interruptedPayload : List Nat := [105, 110, 116, 101, 114, 114, 117, 112, 116, 101, 100]

/-- Sample 208-byte frame payload used by concrete witnesses. -/
def frame208 : List Nat := List.replicate 208 0

/-- External stimuli of one avatar session: an inbound data packet (with
the wall-clock readings taken during its handling), one firing of the
60 Hz dequeue timer, and the completion of loading of the Unity
rendering module. -/
inductive Event where
  | data (payload : List Nat) (identity : Option String) (now : Nat) (dateNow : Nat)
  | tick
  | unityLoaded
deriving DecidableEq, Repr

/-- One message-call into the rendering module: target object, target
method, string payload (`sendMessage` of `react-unity-webgl`). -/
abbrev UnityMsg := String × String × String

/-- Serialisation performed by the frame effect in `AvatarView.tsx` lines
280-286: a 208-byte frame becomes the comma-separated decimal byte
values, anything else (the queued "final" marker) is decoded as text. -/
def serializeFrame (p : List Nat) : String :=
  if p.length = 208 then String.intercalate "," (p.map (fun b => toString b))
  else textDecode p

/-- Message sent by `sendMessage('ReactBridge', 'OnAnimationData', str)`. -/
def animMsg (str : String) : UnityMsg := ("ReactBridge", "OnAnimationData", str)

/-- Body of the interrupt effect, `AvatarView.tsx` lines 256-260. -/
def interruptEffectBody (isLoaded : Bool) (sig : Nat) : List UnityMsg :=
  if 0 < sig && isLoaded then [animMsg "interrupted"] else []

/-- Body of the frame effect, `AvatarView.tsx` lines 269-295 (the
diagnostic counters of that effect are modelled separately for the
`part_001` variant; they do not influence the emitted message). -/
def frameEffectBody (isLoaded : Bool) (latest : Option (Nat × List Nat)) : List UnityMsg :=
  match latest with
  | some (_, p) => if isLoaded then [animMsg (serializeFrame p)] else []
  | none => []

/-- State of one avatar session: the hook state, the Unity load flag, the
dependency values each `AvatarView` effect last ran with (React re-runs
an effect exactly when its dependency list changes under `Object.is`),
and the accumulated outbound message-calls into the rendering module. -/
structure Sys where
  hook : HookState
  isLoaded : Bool
  prevInterruptDeps : Bool × Nat
  prevFrameDeps : Bool × Option (Nat × List Nat)
  out : List UnityMsg
deriving DecidableEq, Repr

/-- Re-run the interrupt effect (`AvatarView.tsx` lines 256-260) if its
dependency list changed since it last ran. -/
def applyIntEffect (s : Sys) : Sys :=
  if (s.isLoaded, s.hook.interruptSignal) ≠ s.prevInterruptDeps then
    { s with
      prevInterruptDeps := (s.isLoaded, s.hook.interruptSignal)
      out := s.out ++ interruptEffectBody s.isLoaded s.hook.interruptSignal }
  else s

/-- Re-run the frame effect (`AvatarView.tsx` lines 269-295) if its
dependency list changed since it last ran. -/
def applyFrameEffect (s : Sys) : Sys :=
  if (s.isLoaded, s.hook.latestFrame) ≠ s.prevFrameDeps then
    { s with
      prevFrameDeps := (s.isLoaded, s.hook.latestFrame)
      out := s.out ++ frameEffectBody s.isLoaded s.hook.latestFrame }
  else s

/-- Run the two `AvatarView` effects after a state change: each effect
fires only when its dependencies differ from the values it last ran
with, in declaration order (interrupt effect first). -/
def runEffects (s : Sys) : Sys := applyFrameEffect (applyIntEffect s)

/-- One step of the session: apply the event to the hook state (or flip
the load flag), then let React re-run the effects. -/
def step (s : Sys) (e : Event) : Sys :=
  match e with
  | .data payload identity now dateNow =>
      runEffects { s with hook := handleDataReceived s.hook payload identity now dateNow }
  | .tick => runEffects { s with hook := tickHook s.hook }
  | .unityLoaded => runEffects { s with isLoaded := true }

/-- Run a list of events. -/
def run (s : Sys) (es : List Event) : Sys := es.foldl step s

/-- State right after mount: fresh hook state, Unity not loaded, both
effects have run once at mount with the initial dependency values
(emitting nothing: no frame, zero interrupt signal), no messages sent. -/
def initSys : Sys :=
  { hook := initHookState
    isLoaded := false
    prevInterruptDeps := (false, 0)
    prevFrameDeps := (false, none)
    out := [] }

/-- Bound on the pop tag stored in `latestFrame` (Boolean form so that
concrete instances can be settled by `decide`). -/
def latestTagLe (latest : Option (Nat × List Nat)) (fd : Nat) : Bool :=
  match latest with
  | none => true
  | some (t, _) => decide (t ≤ fd)

/-- Invariant of reachable session states: the effect dependencies are in
sync with the current state (each effect has already observed the current
values), and the pop tag never exceeds the dequeue counter (so the next
pop always produces a fresh tag). -/
def SysInv (s : Sys) : Prop :=
  s.prevInterruptDeps = (s.isLoaded, s.hook.interruptSignal) ∧
  s.prevFrameDeps = (s.isLoaded, s.hook.latestFrame) ∧
  latestTagLe s.hook.latestFrame s.hook.framesDequeued = true

instance (s : Sys) : Decidable (SysInv s) := by
  unfold SysInv
  infer_instance

/-- Number of frames the downsampler admits when n classified frames
arrive while the running received counter starts at c: those arrivals
whose new counter value is a multiple of 3. -/
def countAdmit (c : Nat) : Nat → Nat
  | 0 => 0
  | n + 1 => (if (c + 1) % 3 = 0 then 1 else 0) + countAdmit (c + 1) n

/-- Feed a list of classified animation frames from the agent into the
hook, one `handleDataReceived` invocation per payload. -/
def feedFrames (s : HookState) (ps : List (List Nat)) (now dn : Nat) : HookState :=
  ps.foldl (fun t p => handleDataReceived t p (some "agent") now dn) s

/-- Apply one session event to the hook state alone. -/
def hookStep (s : HookState) : Event → HookState
  | .data p id now dn => handleDataReceived s p id now dn
  | .tick => tickHook s
  | .unityLoaded => s

/-- Apply a list of session events to the hook state. -/
def hookRun (s : HookState) (es : List Event) : HookState := es.foldl hookStep s

/-- Entries this event admits into the Ordered Buffer: the payload
itself when it is an admitted frame (every third received one) or a
queued `final` marker; nothing otherwise. -/
def admittedBy (s : HookState) : Event → List (List Nat)
  | .data p id _ _ =>
      if agentIdentity id then
        if p.length = 208 then
          if (s.totalFramesReceived + 1) % 3 = 0 then [p] else []
        else if textDecode p = "final" then [p]
        else []
      else []
  | _ => []

/-- Entry this event emits from the Ordered Buffer: the front entry on a
tick with a non-empty queue; nothing otherwise. -/
def emittedBy (s : HookState) : Event → List (List Nat)
  | .tick =>
      match s.frameQueue with
      | [] => []
      | f :: _ => [f]
  | _ => []

/-- All entries admitted over an event sequence, in admission order. -/
def admittedTrace (s : HookState) : List Event → List (List Nat)
  | [] => []
  | e :: es => admittedBy s e ++ admittedTrace (hookStep s e) es

/-- All entries emitted over an event sequence, in emission order. -/
def emittedTrace (s : HookState) : List Event → List (List Nat)
  | [] => []
  | e :: es => emittedBy s e ++ emittedTrace (hookStep s e) es

/-- Whether an event is a packet classified as the Interrupted control
signal. -/
def isInterruptEvent : Event → Bool
  | .data p id _ _ =>
      agentIdentity id && !decide (p.length = 208) && decide (textDecode p = "interrupted")
  | _ => false

/-- Module-scope mutable bindings of the `part_001` avatar view (lines
14-15): declared with `let` at ES-module scope, so they are created once
per page load and survive component unmounts and remounts. -/
structure ModuleVars where
  firstUnityFrameTime : Option Nat
  unitySentCount : Nat
deriving DecidableEq, Repr

/-- Values of the module bindings at page load. -/
def initModuleVars : ModuleVars := { firstUnityFrameTime := none, unitySentCount := 0 }

/-- Embed of the frame-send effect body of `part_001` (lines 152-178) as
far as it touches the module bindings: on each frame delivered to Unity
it records the time of the first delivery and bumps the sent counter. -/
def sendFrameToUnity (m : ModuleVars) (now : Nat) : ModuleVars :=
  { firstUnityFrameTime :=
      match m.firstUnityFrameTime with
      | none => some now
      | some t => some t
    unitySentCount := m.unitySentCount + 1 }

/-- One avatar session of the `part_001` variant: the per-mount hook
state plus the module-scope diagnostics. -/
structure Part001State where
  hook : HookState
  modVars : ModuleVars
deriving DecidableEq, Repr

/-- State at page load: both parts fresh. -/
def part001PageLoad : Part001State :=
  { hook := initHookState, modVars := initModuleVars }

/-- An inbound data packet only touches the hook. -/
def part001Data (s : Part001State) (p : List Nat) (id : Option String)
    (now dn : Nat) : Part001State :=
  { s with hook := handleDataReceived s.hook p id now dn }

/-- One 60 Hz tick of a loaded `part_001` session: the hook pops one
entry if any; the frame effect then delivers the freshly popped
`latestFrame` to Unity and updates the module diagnostics. -/
def part001Tick (s : Part001State) (now : Nat) : Part001State :=
  match s.hook.frameQueue with
  | [] => s
  | _ :: _ => { hook := tickHook s.hook, modVars := sendFrameToUnity s.modVars now }

/-- Session teardown (the disconnect handler switches the screen, which
unmounts the avatar view) followed by a new session start (remount): the
hook state is recreated with its initial values, while the module-scope
bindings persist; no code in `part_001` resets them. -/
def part001Restart (s : Part001State) : Part001State :=
  { hook := initHookState, modVars := s.modVars }

theorem utf8DecodeAux_rest_le (b : Nat) (l : List Nat) :
    (utf8DecodeAux b l).2.1.length ≤ l.length := by
  unfold utf8DecodeAux
  repeat' split
  all_goals simp_all
  all_goals omega

theorem utf8DecodeFuel_congr :
    ∀ fuel1 fuel2 l, l.length ≤ fuel1 → l.length ≤ fuel2 →
      utf8DecodeFuel fuel1 l = utf8DecodeFuel fuel2 l := by
  intro fuel1
  induction fuel1 with
  | zero =>
    intro fuel2 l h1 _
    match l, fuel2 with
    | [], 0 => rfl
    | [], _ + 1 => rfl
    | _ :: _, _ => simp at h1
  | succ f1 ih =>
    intro fuel2 l h1 h2
    match l, fuel2 with
    | [], 0 => rfl
    | [], _ + 1 => rfl
    | b :: rest, 0 => simp at h2
    | b :: rest, f2 + 1 =>
      have hr := utf8DecodeAux_rest_le b rest
      simp only [List.length_cons] at h1 h2
      simp only [utf8DecodeFuel]
      rw [ih f2 _ (by omega) (by omega)]

theorem utf8ValidFuel_congr :
    ∀ fuel1 fuel2 l, l.length ≤ fuel1 → l.length ≤ fuel2 →
      utf8ValidFuel fuel1 l = utf8ValidFuel fuel2 l := by
  intro fuel1
  induction fuel1 with
  | zero =>
    intro fuel2 l h1 _
    match l, fuel2 with
    | [], 0 => rfl
    | [], _ + 1 => rfl
    | _ :: _, _ => simp at h1
  | succ f1 ih =>
    intro fuel2 l h1 h2
    match l, fuel2 with
    | [], 0 => rfl
    | [], _ + 1 => rfl
    | b :: rest, 0 => simp at h2
    | b :: rest, f2 + 1 =>
      have hr := utf8DecodeAux_rest_le b rest
      simp only [List.length_cons] at h1 h2
      simp only [utf8ValidFuel]
      rw [ih f2 _ (by omega) (by omega)]

theorem utf8Decode_nil : utf8Decode [] = [] := rfl

theorem utf8Decode_cons (b : Nat) (rest : List Nat) :
    utf8Decode (b :: rest) =
      (utf8DecodeAux b rest).1 :: utf8Decode (utf8DecodeAux b rest).2.1 := by
  have hr := utf8DecodeAux_rest_le b rest
  simp only [utf8Decode, List.length_cons, utf8DecodeFuel]
  rw [utf8DecodeFuel_congr rest.length (utf8DecodeAux b rest).2.1.length _ hr (Nat.le_refl _)]

theorem utf8Valid_cons (b : Nat) (rest : List Nat) :
    utf8Valid (b :: rest) =
      ((utf8DecodeAux b rest).2.2 && utf8Valid (utf8DecodeAux b rest).2.1) := by
  have hr := utf8DecodeAux_rest_le b rest
  simp only [utf8Valid, List.length_cons, utf8ValidFuel]
  rw [utf8ValidFuel_congr rest.length (utf8DecodeAux b rest).2.1.length _ hr (Nat.le_refl _)]

theorem utf8DecodeAux_invalid_char (b : Nat) (l : List Nat) :
    (utf8DecodeAux b l).2.2 = false → (utf8DecodeAux b l).1 = replacementChar := by
  unfold utf8DecodeAux
  repeat' split
  all_goals simp

/-- When a strict decode of the payload fails, the lossy decode contains
at least one replacement character. -/
theorem utf8Decode_invalid_mem (l : List Nat) (h : utf8Valid l = false) :
    replacementChar ∈ utf8Decode l := by
  have main : ∀ n l, l.length ≤ n → utf8Valid l = false → replacementChar ∈ utf8Decode l := by
    intro n
    induction n with
    | zero =>
      intro l hl hv
      match l with
      | [] => simp [utf8Valid, utf8ValidFuel] at hv
      | _ :: _ => simp at hl
    | succ n ih =>
      intro l hl hv
      match l with
      | [] => simp [utf8Valid, utf8ValidFuel] at hv
      | b :: rest =>
        have hr := utf8DecodeAux_rest_le b rest
        rw [utf8Valid_cons] at hv
        rw [utf8Decode_cons]
        simp only [List.length_cons] at hl
        rcases Bool.and_eq_false_iff.mp hv with h1 | h2
        · rw [utf8DecodeAux_invalid_char b rest h1]
          exact List.mem_cons_self _ _
        · exact List.mem_cons_of_mem _ (ih _ (by omega) h2)
  exact main l.length l (Nat.le_refl _) h

theorem applyIntEffect_eq (s : Sys)
    (hi : (s.isLoaded, s.hook.interruptSignal) = s.prevInterruptDeps) :
    applyIntEffect s = s := by
  unfold applyIntEffect
  rw [if_neg (not_not_intro hi)]

theorem applyIntEffect_ne (s : Sys)
    (hi : (s.isLoaded, s.hook.interruptSignal) ≠ s.prevInterruptDeps) :
    applyIntEffect s =
      { s with
        prevInterruptDeps := (s.isLoaded, s.hook.interruptSignal)
        out := s.out ++ interruptEffectBody s.isLoaded s.hook.interruptSignal } := by
  unfold applyIntEffect
  rw [if_pos hi]

theorem applyFrameEffect_eq (s : Sys)
    (hf : (s.isLoaded, s.hook.latestFrame) = s.prevFrameDeps) :
    applyFrameEffect s = s := by
  unfold applyFrameEffect
  rw [if_neg (not_not_intro hf)]

theorem applyFrameEffect_ne (s : Sys)
    (hf : (s.isLoaded, s.hook.latestFrame) ≠ s.prevFrameDeps) :
    applyFrameEffect s =
      { s with
        prevFrameDeps := (s.isLoaded, s.hook.latestFrame)
        out := s.out ++ frameEffectBody s.isLoaded s.hook.latestFrame } := by
  unfold applyFrameEffect
  rw [if_pos hf]

theorem runEffects_id (s : Sys)
    (h1 : s.prevInterruptDeps = (s.isLoaded, s.hook.interruptSignal))
    (h2 : s.prevFrameDeps = (s.isLoaded, s.hook.latestFrame)) :
    runEffects s = s := by
  unfold runEffects
  rw [applyIntEffect_eq s h1.symm, applyFrameEffect_eq s h2.symm]

theorem runEffects_hook (s : Sys) :
    (runEffects s).hook = s.hook ∧ (runEffects s).isLoaded = s.isLoaded := by
  simp only [runEffects, applyIntEffect, applyFrameEffect]
  split <;> split <;> simp

theorem runEffects_sync (s : Sys) :
    (runEffects s).prevInterruptDeps =
      ((runEffects s).isLoaded, (runEffects s).hook.interruptSignal) ∧
    (runEffects s).prevFrameDeps =
      ((runEffects s).isLoaded, (runEffects s).hook.latestFrame) := by
  simp only [runEffects, applyIntEffect, applyFrameEffect]
  split <;> split <;> simp_all

theorem handle_not_agent (s : HookState) (p : List Nat) (id : Option String)
    (now dn : Nat) (h : agentIdentity id = false) :
    handleDataReceived s p id now dn = s := by
  simp [handleDataReceived, h]

theorem handle_frame (s : HookState) (p : List Nat) (id : Option String)
    (now dn : Nat) (hid : agentIdentity id = true) (hlen : p.length = 208) :
    handleDataReceived s p id now dn =
      { s with
        firstFrameTime := if s.firstFrameTime = none then some now else s.firstFrameTime
        totalFramesReceived := s.totalFramesReceived + 1
        frameQueue :=
          if (s.totalFramesReceived + 1) % 3 = 0 then s.frameQueue ++ [p]
          else s.frameQueue } := by
  simp only [handleDataReceived, hid, hlen]
  by_cases hf : s.firstFrameTime = none <;> by_cases h3 : (s.totalFramesReceived + 1) % 3 = 0 <;>
    simp [hf, h3]

theorem handle_final (s : HookState) (p : List Nat) (id : Option String)
    (now dn : Nat) (hid : agentIdentity id = true) (hlen : p.length ≠ 208)
    (hdec : textDecode p = "final") :
    handleDataReceived s p id now dn = { s with frameQueue := s.frameQueue ++ [p] } := by
  simp [handleDataReceived, hid, hlen, hdec]

theorem handle_interrupted (s : HookState) (p : List Nat) (id : Option String)
    (now dn : Nat) (hid : agentIdentity id = true) (hlen : p.length ≠ 208)
    (hdec : textDecode p = "interrupted") :
    handleDataReceived s p id now dn = setInterruptSignal dn (clearQueue s) := by
  have hne : textDecode p ≠ "final" := by
    rw [hdec]; decide
  simp [handleDataReceived, hid, hlen, hdec, hne]

theorem handle_ignored_text (s : HookState) (p : List Nat) (id : Option String)
    (now dn : Nat) (hid : agentIdentity id = true) (hlen : p.length ≠ 208)
    (hf : textDecode p ≠ "final") (hi : textDecode p ≠ "interrupted") :
    handleDataReceived s p id now dn = s := by
  simp [handleDataReceived, hid, hlen, hf, hi]

/-- Fields `handleDataReceived` never writes. -/
theorem handle_fixed (s : HookState) (p : List Nat) (id : Option String) (now dn : Nat) :
    (handleDataReceived s p id now dn).latestFrame = s.latestFrame ∧
    (handleDataReceived s p id now dn).framesDequeued = s.framesDequeued ∧
    (handleDataReceived s p id now dn).frameCount = s.frameCount := by
  simp only [handleDataReceived, setInterruptSignal, clearQueue]
  repeat' split
  all_goals simp

/-- The interrupt signal changes only in the interrupted branch. -/
theorem handle_sig (s : HookState) (p : List Nat) (id : Option String) (now dn : Nat)
    (h : classify p id ≠ .interruptedSignal) :
    (handleDataReceived s p id now dn).interruptSignal = s.interruptSignal := by
  simp only [handleDataReceived, classify, setInterruptSignal, clearQueue] at h ⊢
  repeat' split
  all_goals simp_all

theorem classify_interrupted_inv (p : List Nat) (id : Option String)
    (h : classify p id = .interruptedSignal) :
    agentIdentity id = true ∧ p.length ≠ 208 ∧ textDecode p = "interrupted" := by
  simp only [classify] at h
  repeat' split at h
  all_goals simp_all

theorem step_hook (s : Sys) (e : Event) :
    (step s e).hook =
      (match e with
       | .data payload identity now dateNow =>
           handleDataReceived s.hook payload identity now dateNow
       | .tick => tickHook s.hook
       | .unityLoaded => s.hook) ∧
    (step s e).isLoaded = (match e with | .unityLoaded => true | _ => s.isLoaded) := by
  cases e <;> simp [step, runEffects_hook]

theorem sysInv_init : SysInv initSys := by decide

/-- Neither effect fires when both dependency lists are unchanged. -/
theorem runEffects_none (s : Sys)
    (hi : (s.isLoaded, s.hook.interruptSignal) = s.prevInterruptDeps)
    (hf : (s.isLoaded, s.hook.latestFrame) = s.prevFrameDeps) :
    runEffects s = s := runEffects_id s hi.symm hf.symm

/-- Only the interrupt effect fires. -/
theorem runEffects_int_only (s : Sys)
    (hi : (s.isLoaded, s.hook.interruptSignal) ≠ s.prevInterruptDeps)
    (hf : (s.isLoaded, s.hook.latestFrame) = s.prevFrameDeps) :
    runEffects s =
      { s with
        prevInterruptDeps := (s.isLoaded, s.hook.interruptSignal)
        out := s.out ++ interruptEffectBody s.isLoaded s.hook.interruptSignal } := by
  unfold runEffects
  rw [applyIntEffect_ne s hi]
  rw [applyFrameEffect_eq]
  exact hf

/-- Only the frame effect fires. -/
theorem runEffects_frame_only (s : Sys)
    (hi : (s.isLoaded, s.hook.interruptSignal) = s.prevInterruptDeps)
    (hf : (s.isLoaded, s.hook.latestFrame) ≠ s.prevFrameDeps) :
    runEffects s =
      { s with
        prevFrameDeps := (s.isLoaded, s.hook.latestFrame)
        out := s.out ++ frameEffectBody s.isLoaded s.hook.latestFrame } := by
  unfold runEffects
  rw [applyIntEffect_eq s hi, applyFrameEffect_ne s hf]

/-- Both effects fire (in declaration order). -/
theorem runEffects_both (s : Sys)
    (hi : (s.isLoaded, s.hook.interruptSignal) ≠ s.prevInterruptDeps)
    (hf : (s.isLoaded, s.hook.latestFrame) ≠ s.prevFrameDeps) :
    runEffects s =
      { s with
        prevInterruptDeps := (s.isLoaded, s.hook.interruptSignal)
        prevFrameDeps := (s.isLoaded, s.hook.latestFrame)
        out := s.out ++ interruptEffectBody s.isLoaded s.hook.interruptSignal
                     ++ frameEffectBody s.isLoaded s.hook.latestFrame } := by
  unfold runEffects
  rw [applyIntEffect_ne s hi]
  rw [applyFrameEffect_ne]
  exact hf

theorem sysInv_step (s : Sys) (e : Event) (h : SysInv s) : SysInv (step s e) := by
  obtain ⟨h1, h2, h3⟩ := h
  have tag : ∀ x : Sys,
      latestTagLe x.hook.latestFrame x.hook.framesDequeued = true → SysInv (runEffects x) := by
    intro x hx
    refine ⟨(runEffects_sync x).1, (runEffects_sync x).2, ?_⟩
    rw [(runEffects_hook x).1]
    exact hx
  cases e with
  | data p id now dn =>
    apply tag
    show latestTagLe (handleDataReceived s.hook p id now dn).latestFrame
      (handleDataReceived s.hook p id now dn).framesDequeued = true
    rw [(handle_fixed s.hook p id now dn).1, (handle_fixed s.hook p id now dn).2.1]
    exact h3
  | tick =>
    apply tag
    show latestTagLe (tickHook s.hook).latestFrame (tickHook s.hook).framesDequeued = true
    unfold tickHook
    split
    · exact h3
    · simp [latestTagLe]
  | unityLoaded =>
    apply tag
    exact h3

theorem sysInv_run (s : Sys) (es : List Event) (h : SysInv s) : SysInv (run s es) := by
  induction es generalizing s with
  | nil => exact h
  | cons e es ih => exact ih _ (sysInv_step s e h)

/-- A data event that is not classified `interruptedSignal` changes only
the hook state: both effect dependency lists are untouched, so no message
is sent. -/
theorem step_data_quiet (s : Sys) (p : List Nat) (id : Option String) (now dn : Nat)
    (h : SysInv s) (hni : classify p id ≠ .interruptedSignal) :
    step s (.data p id now dn) = { s with hook := handleDataReceived s.hook p id now dn } := by
  obtain ⟨h1, h2, _⟩ := h
  show runEffects _ = _
  apply runEffects_none
  · show (s.isLoaded, (handleDataReceived s.hook p id now dn).interruptSignal) =
      s.prevInterruptDeps
    rw [handle_sig s.hook p id now dn hni, h1]
  · show (s.isLoaded, (handleDataReceived s.hook p id now dn).latestFrame) = s.prevFrameDeps
    rw [(handle_fixed s.hook p id now dn).1, h2]

/-- An interrupted data event: the queue is cleared and the signal set;
the interrupt effect fires exactly when the new wall-clock token differs
from the stored one (React dependency comparison). -/
theorem step_data_interrupt (s : Sys) (p : List Nat) (id : Option String) (now dn : Nat)
    (h : SysInv s) (hcl : classify p id = .interruptedSignal) :
    step s (.data p id now dn) =
      (if dn = s.hook.interruptSignal then
        { s with hook := setInterruptSignal dn (clearQueue s.hook) }
      else
        { s with
          hook := setInterruptSignal dn (clearQueue s.hook)
          prevInterruptDeps := (s.isLoaded, dn)
          out := s.out ++ interruptEffectBody s.isLoaded dn }) := by
  obtain ⟨h1, h2, _⟩ := h
  obtain ⟨hid, hlen, hdec⟩ := classify_interrupted_inv p id hcl
  have hh : handleDataReceived s.hook p id now dn = setInterruptSignal dn (clearQueue s.hook) :=
    handle_interrupted s.hook p id now dn hid hlen hdec
  have hstep : step s (.data p id now dn) =
      runEffects { s with hook := setInterruptSignal dn (clearQueue s.hook) } := by
    show runEffects _ = _
    rw [hh]
  rw [hstep]
  by_cases hdn : dn = s.hook.interruptSignal
  · rw [if_pos hdn]
    apply runEffects_none
    · show (s.isLoaded, dn) = s.prevInterruptDeps
      rw [h1, hdn]
    · show (s.isLoaded, s.hook.latestFrame) = s.prevFrameDeps
      rw [h2]
  · rw [if_neg hdn]
    rw [runEffects_int_only]
    · rfl
    · show (s.isLoaded, dn) ≠ s.prevInterruptDeps
      rw [h1]
      simp [hdn]
    · show (s.isLoaded, s.hook.latestFrame) = s.prevFrameDeps
      rw [h2]

/-- A tick on a non-empty queue: the front entry is removed, published,
and (because the freshly shifted array is a new object) the frame effect
fires. -/
theorem step_tick_pop (s : Sys) (f : List Nat) (rest : List (List Nat))
    (h : SysInv s) (hq : s.hook.frameQueue = f :: rest) :
    step s .tick =
      { s with
        hook := tickHook s.hook
        prevFrameDeps := (s.isLoaded, some (s.hook.framesDequeued + 1, f))
        out := s.out ++ frameEffectBody s.isLoaded (some (s.hook.framesDequeued + 1, f)) } := by
  obtain ⟨h1, h2, h3⟩ := h
  have ht : tickHook s.hook =
      { s.hook with
        frameQueue := rest
        latestFrame := some (s.hook.framesDequeued + 1, f)
        frameCount := s.hook.frameCount + 1
        framesDequeued := s.hook.framesDequeued + 1 } := by
    unfold tickHook
    rw [hq]
  have hne : s.hook.latestFrame ≠ some (s.hook.framesDequeued + 1, f) := by
    intro hc
    rw [hc] at h3
    simp [latestTagLe] at h3
  have hi2 : (s.isLoaded, (tickHook s.hook).interruptSignal) = s.prevInterruptDeps := by
    rw [ht, h1]
  have hf2 : (s.isLoaded, (tickHook s.hook).latestFrame) ≠ s.prevFrameDeps := by
    rw [ht, h2]
    simp only [ne_eq, Prod.mk.injEq, true_and]
    exact fun hc => hne hc.symm
  show runEffects { s with hook := tickHook s.hook } = _
  rw [runEffects_frame_only _ hi2 hf2]
  rw [ht]

/-- A tick on an empty queue changes nothing at all. -/
theorem step_tick_empty (s : Sys) (h : SysInv s) (hq : s.hook.frameQueue = []) :
    step s .tick = s := by
  obtain ⟨h1, h2, _⟩ := h
  have ht : tickHook s.hook = s.hook := by
    unfold tickHook
    rw [hq]
  show runEffects _ = _
  have hs : ({ s with hook := tickHook s.hook } : Sys) = s := by
    rw [ht]
  rw [hs]
  exact runEffects_id s h1 h2

/-- Completion of Unity loading: both effects re-run (their `isLoaded`
dependency changed); the interrupt effect emits only for a positive
stored signal, the frame effect delivers the stored latest frame if
there is one. -/
theorem step_load (s : Sys) (h : SysInv s) (hnl : s.isLoaded = false) :
    step s .unityLoaded =
      { s with
        isLoaded := true
        prevInterruptDeps := (true, s.hook.interruptSignal)
        prevFrameDeps := (true, s.hook.latestFrame)
        out := s.out ++ interruptEffectBody true s.hook.interruptSignal
                     ++ frameEffectBody true s.hook.latestFrame } := by
  obtain ⟨h1, h2, _⟩ := h
  show runEffects { s with isLoaded := true } = _
  rw [runEffects_both]
  · show (true, s.hook.interruptSignal) ≠ s.prevInterruptDeps
    rw [h1, hnl]
    simp
  · show (true, s.hook.latestFrame) ≠ s.prevFrameDeps
    rw [h2, hnl]
    simp

theorem countAdmit_eq (n : Nat) : ∀ c, countAdmit c n = (n + c % 3) / 3 := by
  induction n with
  | zero => intro c; simp [countAdmit]
  | succ n ih =>
    intro c
    have hca : countAdmit c (n + 1) =
        (if (c + 1) % 3 = 0 then 1 else 0) + countAdmit (c + 1) n := rfl
    rw [hca, ih (c + 1)]
    split <;> omega

theorem feedFrames_spec (ps : List (List Nat)) (now dn : Nat) :
    ∀ s : HookState, (∀ p ∈ ps, p.length = 208) →
      (feedFrames s ps now dn).totalFramesReceived = s.totalFramesReceived + ps.length ∧
      (feedFrames s ps now dn).frameQueue.length =
        s.frameQueue.length + countAdmit s.totalFramesReceived ps.length := by
  induction ps with
  | nil => intro s _; simp [feedFrames, countAdmit]
  | cons p ps ih =>
    intro s h208
    have hp : p.length = 208 := h208 p (List.mem_cons_self _ _)
    have hrest : ∀ q ∈ ps, q.length = 208 := fun q hq => h208 q (List.mem_cons_of_mem _ hq)
    have hagent : agentIdentity (some "agent") = true := by decide
    have hfeed : feedFrames s (p :: ps) now dn =
        feedFrames (handleDataReceived s p (some "agent") now dn) ps now dn := rfl
    have hs2r : (handleDataReceived s p (some "agent") now dn).totalFramesReceived =
        s.totalFramesReceived + 1 := by
      rw [handle_frame s p (some "agent") now dn hagent hp]
    have hs2q : (handleDataReceived s p (some "agent") now dn).frameQueue.length =
        s.frameQueue.length + (if (s.totalFramesReceived + 1) % 3 = 0 then 1 else 0) := by
      rw [handle_frame s p (some "agent") now dn hagent hp]
      split <;> simp
    obtain ⟨ihr, ihq⟩ := ih (handleDataReceived s p (some "agent") now dn) hrest
    rw [hs2r] at ihr ihq
    rw [hs2q] at ihq
    rw [hfeed]
    refine ⟨by rw [ihr]; simp only [List.length_cons]; omega, ?_⟩
    have hca : countAdmit s.totalFramesReceived (p :: ps).length =
        (if (s.totalFramesReceived + 1) % 3 = 0 then 1 else 0) +
          countAdmit (s.totalFramesReceived + 1) ps.length := rfl
    rw [ihq, hca]
    split <;> omega

theorem fifo_step (s : HookState) (e : Event) (hni : isInterruptEvent e = false) :
    emittedBy s e ++ (hookStep s e).frameQueue = s.frameQueue ++ admittedBy s e := by
  cases e with
  | data p id now dn =>
    simp only [emittedBy, hookStep, admittedBy, List.nil_append]
    by_cases hid : agentIdentity id
    · by_cases hlen : p.length = 208
      · rw [handle_frame s p id now dn hid hlen]
        by_cases h3 : (s.totalFramesReceived + 1) % 3 = 0 <;> simp [hid, hlen, h3]
      · by_cases hfin : textDecode p = "final"
        · rw [handle_final s p id now dn hid hlen hfin]
          simp [hid, hlen, hfin]
        · have hint : textDecode p ≠ "interrupted" := by
            simp only [isInterruptEvent, hid, hlen] at hni
            simpa using hni
          rw [handle_ignored_text s p id now dn hid hlen hfin hint]
          simp [hid, hlen, hfin, hint]
    · rw [handle_not_agent s p id now dn (by simpa using hid)]
      simp [hid]
  | tick =>
    cases hsq : s.frameQueue with
    | nil => simp [emittedBy, hookStep, tickHook, admittedBy, hsq]
    | cons f rest => simp [emittedBy, hookStep, tickHook, admittedBy, hsq]
  | unityLoaded => simp [emittedBy, hookStep, admittedBy]

/-- FIFO invariant over a whole run without interrupts: what was emitted
followed by what is still queued equals what was initially queued
followed by everything admitted, in order. -/
theorem fifo_run (es : List Event) :
    ∀ s : HookState, (∀ e ∈ es, isInterruptEvent e = false) →
      emittedTrace s es ++ (hookRun s es).frameQueue =
        s.frameQueue ++ admittedTrace s es := by
  induction es with
  | nil => intro s _; simp [emittedTrace, admittedTrace, hookRun]
  | cons e es ih =>
    intro s hni
    have he : isInterruptEvent e = false := hni e (List.mem_cons_self _ _)
    have hes : ∀ x ∈ es, isInterruptEvent x = false :=
      fun x hx => hni x (List.mem_cons_of_mem _ hx)
    have hr : hookRun s (e :: es) = hookRun (hookStep s e) es := rfl
    rw [emittedTrace, admittedTrace, hr, List.append_assoc, ih (hookStep s e) hes,
      ← List.append_assoc, fifo_step s e he, List.append_assoc]

/-- C1: for every sequence of N classified animation frames (208-byte
payloads from the agent, N at least 3), the downsampler counter is
incremented exactly once per classified frame and never for a control
signal, and the number of frames admitted into the Ordered Buffer equals
floor(N/3): precisely those frames whose running received count is a
multiple of 3 are pushed. -/
theorem downsample_admits_floor_third :
    (∀ (s : HookState) (p : List Nat) (id : Option String) (now dn : Nat),
      agentIdentity id = true → p.length = 208 →
      (handleDataReceived s p id now dn).totalFramesReceived = s.totalFramesReceived + 1 ∧
      (handleDataReceived s p id now dn).frameQueue =
        (if (s.totalFramesReceived + 1) % 3 = 0 then s.frameQueue ++ [p]
         else s.frameQueue)) ∧
    (∀ (s : HookState) (p : List Nat) (id : Option String) (now dn : Nat),
      agentIdentity id = true → p.length ≠ 208 →
      (handleDataReceived s p id now dn).totalFramesReceived = s.totalFramesReceived) ∧
    (∀ (ps : List (List Nat)) (now dn : Nat),
      (∀ p ∈ ps, p.length = 208) → 3 ≤ ps.length →
      (feedFrames initHookState ps now dn).totalFramesReceived = ps.length ∧
      (feedFrames initHookState ps now dn).frameQueue.length = ps.length / 3) := by
  refine ⟨?_, ?_, ?_⟩
  · intro s p id now dn hid hlen
    rw [handle_frame s p id now dn hid hlen]
    constructor
    · rfl
    · split <;> rfl
  · intro s p id now dn hid hlen
    simp only [handleDataReceived, hid, hlen, Bool.not_true, Bool.false_eq_true,
      if_false, if_neg hlen]
    repeat' split
    all_goals simp [setInterruptSignal, clearQueue]
  · intro ps now dn h208 _
    obtain ⟨hr, hq⟩ := feedFrames_spec ps now dn initHookState h208
    refine ⟨by simpa [initHookState] using hr, ?_⟩
    rw [hq, countAdmit_eq]
    simp [initHookState]

set_option maxRecDepth 8000 in
/-- Witness for C1 at four concrete frames: received counter 4, one
admitted frame. -/
theorem downsample_admits_floor_third_witness :
    (feedFrames initHookState [frame208, frame208, frame208, frame208] 0 0).totalFramesReceived
        = 4 ∧
    (feedFrames initHookState [frame208, frame208, frame208, frame208] 0 0).frameQueue.length
        = 1 := by
  have h := downsample_admits_floor_third.2.2 [frame208, frame208, frame208, frame208] 0 0
    (by decide) (by decide)
  exact ⟨h.1.trans (by decide), h.2.trans (by decide)⟩

/-- C2: for every sequence of admitted frames and Final markers with no
Interrupted signal, the order of emission by the tick-driven emitter
equals the order of admission: the entries emitted so far followed by the
still queued ones equal the initial queue followed by all admitted
entries, and (from an empty queue) the emitted list is an order-preserving
front part of the admitted list. -/
theorem emission_order_eq_admission_order :
    ∀ (es : List Event) (s : HookState),
      (∀ e ∈ es, isInterruptEvent e = false) →
      emittedTrace s es ++ (hookRun s es).frameQueue =
        s.frameQueue ++ admittedTrace s es ∧
      (s.frameQueue = [] →
        ∃ still, emittedTrace s es ++ still = admittedTrace s es) := by
  intro es s hni
  have h := fifo_run es s hni
  refine ⟨h, fun hq => ⟨(hookRun s es).frameQueue, ?_⟩⟩
  rw [h, hq, List.nil_append]

set_option maxRecDepth 8000 in
/-- Witness for C2: six frames, a final marker and three ticks from the
fresh hook; the emitted trace plus the remaining queue equals the
admitted trace. -/
theorem emission_order_eq_admission_order_witness :
    ∃ still,
      emittedTrace initHookState
          [Event.data frame208 (some "agent") 1 1, Event.data frame208 (some "agent") 2 2,
           Event.data frame208 (some "agent") 3 3, Event.data frame208 (some "agent") 4 4,
           Event.data frame208 (some "agent") 5 5, Event.data frame208 (some "agent") 6 6,
           Event.data finalPayload (some "agent") 7 7, Event.tick, Event.tick, Event.tick]
        ++ still =
      admittedTrace initHookState
          [Event.data frame208 (some "agent") 1 1, Event.data frame208 (some "agent") 2 2,
           Event.data frame208 (some "agent") 3 3, Event.data frame208 (some "agent") 4 4,
           Event.data frame208 (some "agent") 5 5, Event.data frame208 (some "agent") 6 6,
           Event.data finalPayload (some "agent") 7 7, Event.tick, Event.tick, Event.tick] := by
  exact (emission_order_eq_admission_order _ initHookState (by decide)).2 rfl

/-- C3: processing a classified Interrupted signal leaves the buffer
with exactly 0 entries regardless of how many were queued, and the
handler is literally the composition of the queue clear followed by the
cancellation notification, so the buffer is already empty (conjunct on
`clearQueue`) before `setInterruptSignal` raises the notification. -/
theorem interrupt_flush_empties_buffer :
    ∀ (s : HookState) (p : List Nat) (id : Option String) (now dn : Nat),
      agentIdentity id = true → p.length ≠ 208 → textDecode p = "interrupted" →
      (handleDataReceived s p id now dn).frameQueue = [] ∧
      handleDataReceived s p id now dn = setInterruptSignal dn (clearQueue s) ∧
      (clearQueue s).frameQueue = [] := by
  intro s p id now dn hid hlen hdec
  have hh := handle_interrupted s p id now dn hid hlen hdec
  exact ⟨by rw [hh]; rfl, hh, rfl⟩

set_option maxRecDepth 8000 in
/-- Witness for C3: an interrupted packet on a buffer holding two
entries. -/
theorem interrupt_flush_empties_buffer_witness :
    (handleDataReceived
        { initHookState with frameQueue := [frame208, finalPayload] }
        interruptedPayload (some "agent") 9 9).frameQueue = [] := by
  exact (interrupt_flush_empties_buffer
    { initHookState with frameQueue := [frame208, finalPayload] }
    interruptedPayload (some "agent") 9 9 (by decide) (by decide) (by decide)).1

/-- C4 counterexample: two Interrupted signals delivered back-to-back
within the same millisecond (`Date.now()` returns 5 both times, as it can
for interrupts arriving in the same tick).  Only ONE cancellation
notification reaches the rendering module, and the second interrupt is a
complete no-op on the session state: the token is the wall-clock value,
which is non-decreasing but not strictly increasing, and the notifying
effect is keyed on that value, so equal tokens coalesce.  This refutes
the claim that each of two back-to-back interrupts raises a distinct,
individually observable notification with a monotonically increasing
token. -/
theorem repeated_interrupt_coalesces_counterexample :
    (run initSys
        [Event.unityLoaded,
         Event.data interruptedPayload (some "agent") 0 5,
         Event.data interruptedPayload (some "agent") 0 5]).out.count
      (animMsg "interrupted") = 1 ∧
    run initSys
        [Event.unityLoaded,
         Event.data interruptedPayload (some "agent") 0 5,
         Event.data interruptedPayload (some "agent") 0 5] =
      run initSys
        [Event.unityLoaded,
         Event.data interruptedPayload (some "agent") 0 5] := by
  constructor <;> decide

/-- C4 amended: every Interrupted signal stores the current wall clock as
the cancellation token, and two back-to-back interrupts raise two
individually observable notifications exactly when the clock advanced
between them; with equal timestamps the second is coalesced (see the
counterexample). -/
theorem repeated_interrupt_distinct_when_clock_advances :
    ∀ (s : Sys) (now1 now2 t1 t2 : Nat), SysInv s → s.isLoaded = true →
      s.hook.interruptSignal < t1 → t1 < t2 →
      (run s [Event.data interruptedPayload (some "agent") now1 t1,
              Event.data interruptedPayload (some "agent") now2 t2]).out =
        s.out ++ [animMsg "interrupted", animMsg "interrupted"] ∧
      (run s [Event.data interruptedPayload (some "agent") now1 t1]).hook.interruptSignal
        = t1 ∧
      (run s [Event.data interruptedPayload (some "agent") now1 t1,
              Event.data interruptedPayload (some "agent") now2 t2]).hook.interruptSignal
        = t2 := by
  intro s now1 now2 t1 t2 hinv hl h1 h12
  have hcl : classify interruptedPayload (some "agent") = .interruptedSignal := by decide
  have hrun1 : run s [Event.data interruptedPayload (some "agent") now1 t1] =
      step s (Event.data interruptedPayload (some "agent") now1 t1) := rfl
  have hrun2 : run s [Event.data interruptedPayload (some "agent") now1 t1,
      Event.data interruptedPayload (some "agent") now2 t2] =
      step (step s (Event.data interruptedPayload (some "agent") now1 t1))
        (Event.data interruptedPayload (some "agent") now2 t2) := rfl
  have hs1 : step s (Event.data interruptedPayload (some "agent") now1 t1) =
      { s with
        hook := setInterruptSignal t1 (clearQueue s.hook)
        prevInterruptDeps := (s.isLoaded, t1)
        out := s.out ++ interruptEffectBody s.isLoaded t1 } := by
    rw [step_data_interrupt s _ _ now1 t1 hinv hcl, if_neg (by omega)]
  have hinv1 : SysInv (step s (Event.data interruptedPayload (some "agent") now1 t1)) :=
    sysInv_step s _ hinv
  rw [hs1] at hinv1
  have hs2 : step
      ({ s with
        hook := setInterruptSignal t1 (clearQueue s.hook)
        prevInterruptDeps := (s.isLoaded, t1)
        out := s.out ++ interruptEffectBody s.isLoaded t1 } : Sys)
      (Event.data interruptedPayload (some "agent") now2 t2) =
      { s with
        hook := setInterruptSignal t2 (clearQueue s.hook)
        prevInterruptDeps := (s.isLoaded, t2)
        out := (s.out ++ interruptEffectBody s.isLoaded t1)
                ++ interruptEffectBody s.isLoaded t2 } := by
    rw [step_data_interrupt _ _ _ now2 t2 hinv1 hcl]
    rw [if_neg (by show ¬t2 = t1; omega)]
    rfl
  have hbody1 : interruptEffectBody s.isLoaded t1 = [animMsg "interrupted"] := by
    simp [interruptEffectBody, hl]
    omega
  have hbody2 : interruptEffectBody s.isLoaded t2 = [animMsg "interrupted"] := by
    simp [interruptEffectBody, hl]
    omega
  refine ⟨?_, ?_, ?_⟩
  · rw [hrun2, hs1, hs2, hbody1, hbody2]
    simp
  · rw [hrun1, hs1]
    rfl
  · rw [hrun2, hs1, hs2]
    rfl

/-- Witness for the amended C4: from the freshly loaded session, two
interrupts with advancing clock values 5 and 6 produce two
notifications. -/
theorem repeated_interrupt_distinct_when_clock_advances_witness :
    (run (run initSys [Event.unityLoaded])
        [Event.data interruptedPayload (some "agent") 0 5,
         Event.data interruptedPayload (some "agent") 0 6]).out =
      (run initSys [Event.unityLoaded]).out
        ++ [animMsg "interrupted", animMsg "interrupted"] := by
  exact (repeated_interrupt_distinct_when_clock_advances (run initSys [Event.unityLoaded])
    0 0 5 6 (by decide) (by decide) (by decide) (by decide)).1

/-- C5: on every tick the emitter removes at most one entry: with a
non-empty buffer it pops exactly the oldest entry and forwards its
serialisation (comma-separated decimal byte values for a 208-byte frame,
the literal token for the queued final marker) to the rendering module
via the named handler and method; with an empty buffer the tick changes
nothing and emits nothing. -/
theorem tick_pops_at_most_one_entry :
    ∀ s : Sys, SysInv s → s.isLoaded = true →
      (s.hook.frameQueue = [] → step s .tick = s) ∧
      (∀ f rest, s.hook.frameQueue = f :: rest →
        (step s .tick).hook.frameQueue = rest ∧
        (step s .tick).out = s.out ++ [animMsg (serializeFrame f)] ∧
        (f.length = 208 →
          serializeFrame f = String.intercalate "," (f.map (fun b => toString b))) ∧
        serializeFrame finalPayload = "final") := by
  intro s hinv hl
  refine ⟨fun hq => step_tick_empty s hinv hq, ?_⟩
  intro f rest hq
  have hpop := step_tick_pop s f rest hinv hq
  have ht : (tickHook s.hook).frameQueue = rest := by
    unfold tickHook
    rw [hq]
  refine ⟨?_, ?_, ?_, by decide⟩
  · rw [hpop]
    exact ht
  · rw [hpop]
    show s.out ++ frameEffectBody s.isLoaded (some (s.hook.framesDequeued + 1, f)) = _
    rw [hl]
    rfl
  · intro hlen
    simp [serializeFrame, hlen]

set_option maxRecDepth 8000 in
/-- Witness for C5: the loaded session that has admitted one frame; the
next tick pops it and forwards its serialisation. -/
theorem tick_pops_at_most_one_entry_witness :
    (step (run initSys
        [Event.unityLoaded,
         Event.data frame208 (some "agent") 1 1, Event.data frame208 (some "agent") 2 2,
         Event.data frame208 (some "agent") 3 3]) .tick).hook.frameQueue = [] ∧
    (step (run initSys
        [Event.unityLoaded,
         Event.data frame208 (some "agent") 1 1, Event.data frame208 (some "agent") 2 2,
         Event.data frame208 (some "agent") 3 3]) .tick).out =
      (run initSys
        [Event.unityLoaded,
         Event.data frame208 (some "agent") 1 1, Event.data frame208 (some "agent") 2 2,
         Event.data frame208 (some "agent") 3 3]).out
        ++ [animMsg (serializeFrame frame208)] := by
  have h := (tick_pops_at_most_one_entry (run initSys
      [Event.unityLoaded,
       Event.data frame208 (some "agent") 1 1, Event.data frame208 (some "agent") 2 2,
       Event.data frame208 (some "agent") 3 3]) (by decide) (by decide)).2
    frame208 [] (by decide)
  exact ⟨h.1, h.2.1⟩

/-- A payload whose strict UTF-8 decode fails can never decode (lossily)
to one of the pure-ASCII control tokens, because its lossy decode
contains U+FFFD. -/
theorem invalid_decode_not_token (p : List Nat) (h : utf8Valid p = false) :
    textDecode p ≠ "final" ∧ textDecode p ≠ "interrupted" := by
  have hm := utf8Decode_invalid_mem p h
  constructor <;> intro hc
  · have hd : utf8Decode p = "final".data := congrArg String.data hc
    rw [hd] at hm
    revert hm
    decide
  · have hd : utf8Decode p = "interrupted".data := congrArg String.data hc
    rw [hd] at hm
    revert hm
    decide

/-- C6: classification of inbound agent packets is total (the embedded
handler is a total function, so no error can be raised): a 208-byte
payload is classified as a Frame; any other payload is decoded as text
and matched against the two control tokens; text matching neither token,
as well as any payload whose strict UTF-8 decode fails, is silently
ignored and leaves the whole hook state unchanged. -/
theorem classification_total_unrecognized_ignored :
    (∀ (p : List Nat) (id : Option String),
      agentIdentity id = true → p.length = 208 → classify p id = .frame) ∧
    (∀ (s : HookState) (p : List Nat) (id : Option String) (now dn : Nat),
      agentIdentity id = true → p.length ≠ 208 →
      textDecode p ≠ "final" → textDecode p ≠ "interrupted" →
      classify p id = .ignored ∧ handleDataReceived s p id now dn = s) ∧
    (∀ (s : HookState) (p : List Nat) (id : Option String) (now dn : Nat),
      agentIdentity id = true → p.length ≠ 208 → utf8Valid p = false →
      classify p id = .ignored ∧ handleDataReceived s p id now dn = s) := by
  refine ⟨?_, ?_, ?_⟩
  · intro p id hid hlen
    simp [classify, hid, hlen]
  · intro s p id now dn hid hlen hf hi
    exact ⟨by simp [classify, hid, hlen, hf, hi],
      handle_ignored_text s p id now dn hid hlen hf hi⟩
  · intro s p id now dn hid hlen hbad
    obtain ⟨hf, hi⟩ := invalid_decode_not_token p hbad
    exact ⟨by simp [classify, hid, hlen, hf, hi],
      handle_ignored_text s p id now dn hid hlen hf hi⟩

set_option maxRecDepth 8000 in
/-- Witness for C6: the lone byte 0xFF is not valid UTF-8; the packet is
ignored and the fresh hook state is unchanged; a concrete 208-byte
payload is classified as a frame. -/
theorem classification_total_unrecognized_ignored_witness :
    (classify [255] (some "agent") = .ignored ∧
      handleDataReceived initHookState [255] (some "agent") 3 4 = initHookState) ∧
    classify (List.replicate 208 7) (some "agent") = .frame := by
  constructor
  · exact classification_total_unrecognized_ignored.2.2 initHookState [255] (some "agent") 3 4
      (by decide) (by decide) (by decide)
  · exact classification_total_unrecognized_ignored.1 (List.replicate 208 7) (some "agent")
      (by decide) (by decide)

set_option maxRecDepth 8000 in
/-- C7 counterexample: the claim says that after a session teardown
followed by a new session start the first-frame timestamp (the
module-scope `firstUnityFrameTime` of `part_001`, lines 14-15, cited by
the claim) is cleared before the first new packet.  Concretely: a session
receives three frames (one admitted) and performs one loaded tick at time
100, delivering the frame to Unity; the session is then torn down and a
new one started.  The hook state is fresh, but the module-scope
first-frame timestamp still reads 100 - it is not cleared. -/
theorem reset_on_teardown_counterexample :
    (part001Restart (part001Tick (part001Data (part001Data (part001Data part001PageLoad
        frame208 (some "agent") 1 1) frame208 (some "agent") 2 2)
        frame208 (some "agent") 3 3) 100)).hook = initHookState ∧
    (part001Restart (part001Tick (part001Data (part001Data (part001Data part001PageLoad
        frame208 (some "agent") 1 1) frame208 (some "agent") 2 2)
        frame208 (some "agent") 3 3) 100)).modVars.firstUnityFrameTime = some 100 ∧
    (part001Restart (part001Tick (part001Data (part001Data (part001Data part001PageLoad
        frame208 (some "agent") 1 1) frame208 (some "agent") 2 2)
        frame208 (some "agent") 3 3) 100)).modVars.firstUnityFrameTime ≠ none := by
  refine ⟨?_, ?_, ?_⟩ <;> decide

/-- C7 amended: after a teardown followed by a new session start, all
per-mount hook state is reset before the first new packet (received,
admitted and emitted counters read 0, the downsample counter reads 0, the
hook first-frame timestamp is cleared, the buffer is empty); the
module-scope Unity delivery diagnostics of the `part_001` avatar view
(first-Unity-frame timestamp and sent counter) persist across sessions
unchanged. -/
theorem reset_on_teardown_amended :
    ∀ s : Part001State,
      (part001Restart s).hook.totalFramesReceived = 0 ∧
      (part001Restart s).hook.framesDequeued = 0 ∧
      (part001Restart s).hook.frameCount = 0 ∧
      (part001Restart s).hook.frameQueue = [] ∧
      (part001Restart s).hook.firstFrameTime = none ∧
      (part001Restart s).hook.interruptSignal = 0 ∧
      (part001Restart s).hook.latestFrame = none ∧
      (part001Restart s).modVars = s.modVars := by
  intro s
  exact ⟨rfl, rfl, rfl, rfl, rfl, rfl, rfl, rfl⟩

/-- C8: a packet whose sender identity does not start with the agent
identity is classified Ignored and processing it changes nothing: the
hook state (all counters, the first-frame timestamp, the interrupt token
and the buffer) and the whole session state are identical before and
after. -/
theorem non_agent_packet_is_noop :
    ∀ (s : Sys) (p : List Nat) (id : Option String) (now dn : Nat),
      agentIdentity id = false →
      classify p id = .ignored ∧
      handleDataReceived s.hook p id now dn = s.hook ∧
      (SysInv s → step s (.data p id now dn) = s) := by
  intro s p id now dn hid
  have hna := handle_not_agent s.hook p id now dn hid
  refine ⟨by simp [classify, hid], hna, fun hinv => ?_⟩
  have hni : classify p id ≠ .interruptedSignal := by
    simp [classify, hid]
  rw [step_data_quiet s p id now dn hinv hni, hna]

/-- Witness for C8: a packet from identity "user-7" carrying a valid
interrupt token still changes nothing on the fresh session. -/
theorem non_agent_packet_is_noop_witness :
    classify interruptedPayload (some "user-7") = .ignored ∧
    step initSys (.data interruptedPayload (some "user-7") 2 3) = initSys := by
  have h := non_agent_packet_is_noop initSys interruptedPayload (some "user-7") 2 3 (by decide)
  exact ⟨h.1, h.2.2 (by decide)⟩

set_option maxRecDepth 8000 in
/-- C9: the Ordered Buffer has no capacity bound and a push never fails
or drops: both admission paths append the entry at the back of whatever
queue is present; every event either leaves the queue unchanged, appends
exactly one entry at the back, removes exactly the front entry (only a
tick), or clears it (only a classified Interrupted signal) - so admitted
entries are never lost on any other path; and the queue can be driven to
any length n by admissions alone. -/
theorem buffer_unbounded_and_push_total :
    (∀ (s : HookState) (p : List Nat) (id : Option String) (now dn : Nat),
      agentIdentity id = true → p.length = 208 → (s.totalFramesReceived + 1) % 3 = 0 →
      (handleDataReceived s p id now dn).frameQueue = s.frameQueue ++ [p]) ∧
    (∀ (s : HookState) (p : List Nat) (id : Option String) (now dn : Nat),
      agentIdentity id = true → p.length ≠ 208 → textDecode p = "final" →
      (handleDataReceived s p id now dn).frameQueue = s.frameQueue ++ [p]) ∧
    (∀ (s : HookState) (e : Event),
      (hookStep s e).frameQueue = s.frameQueue ∨
      (∃ p, (hookStep s e).frameQueue = s.frameQueue ++ [p]) ∨
      (e = .tick ∧ ∃ f rest, s.frameQueue = f :: rest ∧ (hookStep s e).frameQueue = rest) ∨
      (isInterruptEvent e = true ∧ (hookStep s e).frameQueue = [])) ∧
    (∀ n : Nat, (feedFrames initHookState (List.replicate (3 * n) frame208) 0 0).frameQueue.length
        = n) := by
  refine ⟨?_, ?_, ?_, ?_⟩
  · intro s p id now dn hid hlen h3
    rw [handle_frame s p id now dn hid hlen]
    show (if (s.totalFramesReceived + 1) % 3 = 0 then s.frameQueue ++ [p] else s.frameQueue) = _
    rw [if_pos h3]
  · intro s p id now dn hid hlen hfin
    rw [handle_final s p id now dn hid hlen hfin]
  · intro s e
    cases e with
    | data p id now dn =>
      show (handleDataReceived s p id now dn).frameQueue = s.frameQueue ∨
        (∃ q, (handleDataReceived s p id now dn).frameQueue = s.frameQueue ++ [q]) ∨
        (Event.data p id now dn = Event.tick ∧ ∃ f rest, s.frameQueue = f :: rest ∧
          (handleDataReceived s p id now dn).frameQueue = rest) ∨
        (isInterruptEvent (Event.data p id now dn) = true ∧
          (handleDataReceived s p id now dn).frameQueue = [])
      by_cases hid : agentIdentity id = true
      · by_cases hlen : p.length = 208
        · by_cases h3 : (s.totalFramesReceived + 1) % 3 = 0
          · refine Or.inr (Or.inl ⟨p, ?_⟩)
            rw [handle_frame s p id now dn hid hlen]
            show (if (s.totalFramesReceived + 1) % 3 = 0 then s.frameQueue ++ [p]
              else s.frameQueue) = s.frameQueue ++ [p]
            rw [if_pos h3]
          · refine Or.inl ?_
            rw [handle_frame s p id now dn hid hlen]
            show (if (s.totalFramesReceived + 1) % 3 = 0 then s.frameQueue ++ [p]
              else s.frameQueue) = s.frameQueue
            rw [if_neg h3]
        · by_cases hfin : textDecode p = "final"
          · refine Or.inr (Or.inl ⟨p, ?_⟩)
            rw [handle_final s p id now dn hid hlen hfin]
          · by_cases hint : textDecode p = "interrupted"
            · refine Or.inr (Or.inr (Or.inr ⟨?_, ?_⟩))
              · simp [isInterruptEvent, hid, hlen, hint]
              · rw [handle_interrupted s p id now dn hid hlen hint]
                rfl
            · refine Or.inl ?_
              rw [handle_ignored_text s p id now dn hid hlen hfin hint]
      · refine Or.inl ?_
        rw [handle_not_agent s p id now dn (by simpa using hid)]
    | tick =>
      cases hq : s.frameQueue with
      | nil =>
        refine Or.inl ?_
        show (tickHook s).frameQueue = []
        unfold tickHook
        rw [hq]
        exact hq
      | cons f rest =>
        refine Or.inr (Or.inr (Or.inl ⟨rfl, f, rest, rfl, ?_⟩))
        show (tickHook s).frameQueue = rest
        unfold tickHook
        rw [hq]
    | unityLoaded => exact Or.inl rfl
  · intro n
    have h208 : ∀ p ∈ List.replicate (3 * n) frame208, p.length = 208 := by
      intro p hp
      rw [List.eq_of_mem_replicate hp]
      decide
    obtain ⟨-, hq⟩ := feedFrames_spec (List.replicate (3 * n) frame208) 0 0 initHookState h208
    rw [hq, countAdmit_eq, List.length_replicate]
    show 0 + (3 * n + 0 % 3) / 3 = n
    omega

set_option maxRecDepth 8000 in
/-- Witness for C9: a frame arriving as the third received one is
appended at the back of a queue already holding a final marker, and six
raw frames from scratch give queue length 2. -/
theorem buffer_unbounded_and_push_total_witness :
    (handleDataReceived
        { initHookState with totalFramesReceived := 2, frameQueue := [finalPayload] }
        frame208 (some "agent") 0 0).frameQueue = [finalPayload] ++ [frame208] ∧
    (feedFrames initHookState (List.replicate (3 * 2) frame208) 0 0).frameQueue.length = 2 := by
  constructor
  · exact buffer_unbounded_and_push_total.1
      { initHookState with totalFramesReceived := 2, frameQueue := [finalPayload] }
      frame208 (some "agent") 0 0 (by decide) (by decide) (by decide)
  · exact buffer_unbounded_and_push_total.2.2.2 2

/-- Running one tick per queued entry while the rendering module is not
loaded: nothing is sent, the queue fully drains, the dequeue counter
advances by the queue length, and `latestFrame` ends up holding exactly
the last popped entry (each pop overwrote the previous value). -/
theorem ticks_unloaded :
    ∀ (q : List (List Nat)) (s : Sys), SysInv s → s.isLoaded = false →
      s.hook.frameQueue = q →
      (run s (List.replicate q.length Event.tick)).out = s.out ∧
      (run s (List.replicate q.length Event.tick)).isLoaded = false ∧
      (run s (List.replicate q.length Event.tick)).hook.interruptSignal =
        s.hook.interruptSignal ∧
      (run s (List.replicate q.length Event.tick)).hook.frameQueue = [] ∧
      (run s (List.replicate q.length Event.tick)).hook.framesDequeued =
        s.hook.framesDequeued + q.length ∧
      SysInv (run s (List.replicate q.length Event.tick)) ∧
      ∀ hne : q ≠ [],
        (run s (List.replicate q.length Event.tick)).hook.latestFrame =
          some (s.hook.framesDequeued + q.length, q.getLast hne) := by
  intro q
  induction q with
  | nil =>
    intro s hinv hl hq
    refine ⟨rfl, hl, rfl, hq, rfl, hinv, fun hne => absurd rfl hne⟩
  | cons f rest ih =>
    intro s hinv hl hq
    have hstep := step_tick_pop s f rest hinv hq
    have ht : tickHook s.hook =
        { s.hook with
          frameQueue := rest
          latestFrame := some (s.hook.framesDequeued + 1, f)
          frameCount := s.hook.frameCount + 1
          framesDequeued := s.hook.framesDequeued + 1 } := by
      unfold tickHook
      rw [hq]
    have hrun : run s (List.replicate (f :: rest).length Event.tick) =
        run (step s Event.tick) (List.replicate rest.length Event.tick) := rfl
    have hhook1 : (step s Event.tick).hook = tickHook s.hook := by rw [hstep]
    have hout1 : (step s Event.tick).out = s.out := by
      rw [hstep]
      show s.out ++ frameEffectBody s.isLoaded (some (s.hook.framesDequeued + 1, f)) = s.out
      rw [hl]
      simp [frameEffectBody]
    have hload1 : (step s Event.tick).isLoaded = false := by
      rw [hstep]
      exact hl
    have hq1 : (step s Event.tick).hook.frameQueue = rest := by rw [hhook1, ht]
    have hfd1 : (step s Event.tick).hook.framesDequeued = s.hook.framesDequeued + 1 := by
      rw [hhook1, ht]
    have hsig1 : (step s Event.tick).hook.interruptSignal = s.hook.interruptSignal := by
      rw [hhook1, ht]
    have hlat1 : (step s Event.tick).hook.latestFrame =
        some (s.hook.framesDequeued + 1, f) := by
      rw [hhook1, ht]
    have hinv1 : SysInv (step s Event.tick) := sysInv_step s Event.tick hinv
    obtain ⟨ihout, ihload, ihsig, ihq, ihfd, ihinv, ihlast⟩ :=
      ih (step s Event.tick) hinv1 hload1 hq1
    refine ⟨?_, ?_, ?_, ?_, ?_, ?_, ?_⟩
    · rw [hrun, ihout, hout1]
    · rw [hrun]
      exact ihload
    · rw [hrun, ihsig, hsig1]
    · rw [hrun]
      exact ihq
    · rw [hrun, ihfd, hfd1]
      simp only [List.length_cons]
      omega
    · rw [hrun]
      exact ihinv
    · intro hne
      rw [hrun]
      cases rest with
      | nil =>
        have hbase : run (step s Event.tick) (List.replicate ([] : List (List Nat)).length
            Event.tick) = step s Event.tick := rfl
        rw [hbase, hlat1]
        rfl
      | cons g gs =>
        rw [ihlast (by simp), hfd1]
        simp only [Option.some.injEq, Prod.mk.injEq, List.length_cons]
        refine ⟨by omega, ?_⟩
        exact (List.getLast_cons (by simp)).symm

/-- C10: queue entries popped by ticks while the rendering module is not
yet loaded are silently dropped: none of them is sent to the module,
none is requeued or retried, and each newly popped entry overwrites the
previous `latestFrame`, so when loading completes exactly one message is
sent, carrying only the most recently popped entry. -/
theorem unloaded_pops_dropped_last_delivered_once :
    ∀ (s : Sys) (q : List (List Nat)) (hne : q ≠ []),
      SysInv s → s.isLoaded = false → s.hook.interruptSignal = 0 →
      s.hook.frameQueue = q →
      (run s (List.replicate q.length Event.tick)).out = s.out ∧
      (run s (List.replicate q.length Event.tick)).hook.frameQueue = [] ∧
      (run s (List.replicate q.length Event.tick)).hook.latestFrame =
        some (s.hook.framesDequeued + q.length, q.getLast hne) ∧
      (run s (List.replicate q.length Event.tick ++ [Event.unityLoaded])).out =
        s.out ++ [animMsg (serializeFrame (q.getLast hne))] := by
  intro s q hne hinv hl hsig hq
  obtain ⟨hout, hload, hsig2, hq2, hfd2, hinv2, hlast⟩ := ticks_unloaded q s hinv hl hq
  have hL := hlast hne
  refine ⟨hout, hq2, hL, ?_⟩
  have hsplit : run s (List.replicate q.length Event.tick ++ [Event.unityLoaded]) =
      step (run s (List.replicate q.length Event.tick)) Event.unityLoaded := by
    show (List.replicate q.length Event.tick ++ [Event.unityLoaded]).foldl step s = _
    rw [List.foldl_append]
    rfl
  rw [hsplit, step_load _ hinv2 hload]
  show (run s (List.replicate q.length Event.tick)).out
      ++ interruptEffectBody true
          (run s (List.replicate q.length Event.tick)).hook.interruptSignal
      ++ frameEffectBody true
          (run s (List.replicate q.length Event.tick)).hook.latestFrame =
      s.out ++ [animMsg (serializeFrame (q.getLast hne))]
  rw [hout, hsig2, hsig, hL]
  simp [interruptEffectBody, frameEffectBody]

set_option maxRecDepth 8000 in
/-- Witness for C10: one queued frame popped by a tick before loading;
the load event then delivers exactly that frame once. -/
theorem unloaded_pops_dropped_last_delivered_once_witness :
    (run (run initSys
        [Event.data frame208 (some "agent") 1 1, Event.data frame208 (some "agent") 2 2,
         Event.data frame208 (some "agent") 3 3])
      (List.replicate 1 Event.tick ++ [Event.unityLoaded])).out =
      (run initSys
        [Event.data frame208 (some "agent") 1 1, Event.data frame208 (some "agent") 2 2,
         Event.data frame208 (some "agent") 3 3]).out
        ++ [animMsg (serializeFrame frame208)] := by
  have h := unloaded_pops_dropped_last_delivered_once (run initSys
      [Event.data frame208 (some "agent") 1 1, Event.data frame208 (some "agent") 2 2,
       Event.data frame208 (some "agent") 3 3]) [frame208] (by decide)
    (by decide) (by decide) (by decide) (by decide)
  exact h.2.2.2

end FramePipeline

